import Mathlib

/-!
Verification of the NDKC library attendance system's offline storage and
synchronization core.  The TypeScript sources are embedded shallowly:
timestamps are integer epoch milliseconds, JavaScript string identifiers are
`String`, optional/absent JSON fields are `Option`, fallible asynchronous
calls are `Except`, and the mutable envelope threaded through each service is
passed explicitly.
-/

namespace NDKC

/-- One attendance event, as handled by `deduplicateAttendance.ts`,
`autoSyncService.ts`, `attendanceService.ts` and the realtime service.
`timestamp` is epoch milliseconds (`Date.getTime()`); `course` is the
academic-classifier string, with `""` standing for an absent/empty field
(both are falsy in the JavaScript `a.course && !b.course` tests);
`type` is the direction string (`"check-in"` / `"check-out"`). -/
structure AttendanceEntry where
  id : String
  studentDatabaseId : String
  studentId : String
  studentName : String
  timestamp : Int
  type : String
  course : String
  deriving DecidableEq, Repr

/-- Test for `id.toString().startsWith('local_')`: a locally generated placeholder
identifier (`generateId` in `attendanceService.ts`).  Character-level prefix
test, which is what the JavaScript `String.prototype.startsWith` performs. -/
def isLocalId (s : String) : Bool := "local_".toList.isPrefixOf s.toList

/-- One hexadecimal digit, case-insensitive (the regex class `[0-9a-f]` under
the `i` flag). -/
def isHexDigit (c : Char) : Bool :=
  c.isDigit || (('a' ≤ c) && (c ≤ 'f')) || (('A' ≤ c) && (c ≤ 'F'))

/-- Split a character list on a separator character (the semantics of
`String.prototype.split` with a one-character separator). -/
def splitOnChar (sep : Char) : List Char → List (List Char)
  | [] => [[]]
  | c :: cs =>
    let r := splitOnChar sep cs
    if c = sep then [] :: r
    else match r with
      | [] => [[c]]
      | g :: gs => (c :: g) :: gs

/-- The `isUUID` helper of `autoSyncService.ts` / `attendanceService.ts`:
`/^[0-9a-f]{8}-[0-9a-f]{4}-[0-9a-f]{4}-[0-9a-f]{4}-[0-9a-f]{12}$/i`. -/
def isUUID (s : String) : Bool :=
  match splitOnChar '-' s.toList with
  | [a, b, c, d, e] =>
    a.length == 8 && b.length == 4 && c.length == 4 && d.length == 4 &&
    e.length == 12 &&
    (a.all isHexDigit) && (b.all isHexDigit) &&
    (c.all isHexDigit) && (d.all isHexDigit) && (e.all isHexDigit)
  | _ => false

/-! ## Exact-key deduplication (`src/utils/deduplicateAttendance.ts`) -/
/-- Stable insertion of one entry into a list kept in descending timestamp
order: the incoming element goes before the first element whose timestamp is
not larger, which is what the stable JavaScript
`sort((a, b) => b.timestamp - a.timestamp)` produces. -/
def insertDesc (x : AttendanceEntry) : List AttendanceEntry → List AttendanceEntry
  | [] => [x]
  | y :: ys => if y.timestamp ≤ x.timestamp then x :: y :: ys else y :: insertDesc x ys

/-- Stable sort by descending timestamp (JavaScript `Array.prototype.sort`
with comparator `(a, b) => b.timestamp - a.timestamp`; `sort` is stable). -/
def sortDesc : List AttendanceEntry → List AttendanceEntry
  | [] => []
  | x :: xs => insertDesc x (sortDesc xs)

/-- The dedup key of `deduplicateAttendance`: studentId, direction, and the
timestamp truncated to the second (the source renders the second via local
calendar components `year-month-day-hour-minute-second`; with a fixed
whole-minute UTC offset two timestamps agree on those components exactly when
they agree on `⌊ms / 1000⌋` shifted by that offset, so the key is modelled as
the floored epoch second). -/
def secKey (r : AttendanceEntry) : String × String × Int :=
  (r.studentId, r.type, r.timestamp / 1000)

/-- The `seen`-set loop of `deduplicateAttendance`: keep the first occurrence
of every key, in order. -/
def dedupPass : List AttendanceEntry → List (String × String × Int) → List AttendanceEntry
  | [], _ => []
  | r :: rs, seen =>
    if secKey r ∈ seen then dedupPass rs seen
    else r :: dedupPass rs (secKey r :: seen)

/-- Embeds `deduplicateAttendance` from `src/utils/deduplicateAttendance.ts`: sort a
copy newest-first, keep the first entry of each (studentId, type, second)
key, and sort the result newest-first again. -/
def deduplicateAttendance (records : List AttendanceEntry) : List AttendanceEntry :=
  sortDesc (dedupPass (sortDesc records) [])

/-- Descending timestamp order, pairwise. -/
abbrev SortedDesc (l : List AttendanceEntry) : Prop :=
  l.Pairwise (fun a b => b.timestamp ≤ a.timestamp)

/-! ## Fuzzy cross-provenance merge

The same `pickBetter` / dedupe-loop pair appears verbatim in
`AutoSyncService.syncSupabaseToLocal` (`autoSyncService.ts`, lines 453-472)
and in `RealtimeService.processAttendanceChange` (`pickBetter`,
`dedupeList`).  It is embedded once here. -/
/-- Embeds `pickBetter(a, b)`: prefer the entry with a non-empty course, then the
entry whose identifier is not a locally generated `local_` placeholder, then
the entry with the later timestamp (the first argument wins ties). -/
def pickBetter (a b : AttendanceEntry) : AttendanceEntry :=
  if a.course ≠ "" ∧ b.course = "" then a
  else if b.course ≠ "" ∧ a.course = "" then b
  else if isLocalId a.id = true ∧ isLocalId b.id = false then b
  else if isLocalId b.id = true ∧ isLocalId a.id = false then a
  else if b.timestamp ≤ a.timestamp then a else b

/-- The fuzzy-duplicate test used by both dedupe loops: same studentId, same
direction, and timestamps within 10 seconds
(`Math.abs(t1 - t2) <= 10000`). -/
def fuzzySame (c r : AttendanceEntry) : Prop :=
  c.studentId = r.studentId ∧ c.type = r.type ∧
    (c.timestamp - r.timestamp).natAbs ≤ 10000

instance (c r : AttendanceEntry) : Decidable (fuzzySame c r) := by
  unfold fuzzySame; infer_instance

/-- Replace the first element satisfying `p` by its image under `f`
(`findIndex` followed by an in-place write in the source); `none` when no
element matches. -/
def replaceFirst (p : AttendanceEntry → Prop) [DecidablePred p]
    (f : AttendanceEntry → AttendanceEntry) :
    List AttendanceEntry → Option (List AttendanceEntry)
  | [] => none
  | x :: xs => if p x then some (f x :: xs) else (replaceFirst p f xs).map (x :: ·)

/-- One step of the dedupe loop: fold `r` into the accumulator `out` — if a
fuzzy duplicate is already present, replace the first one by
`pickBetter(existing, r)`; otherwise push `r` at the end. -/
def insertMerge (out : List AttendanceEntry) (r : AttendanceEntry) : List AttendanceEntry :=
  match replaceFirst (fun c => fuzzySame c r) (fun c => pickBetter c r) out with
  | some out2 => out2
  | none => out ++ [r]

/-- The dedupe loop (`for (const rec of combinedRecords) ...` in
`syncSupabaseToLocal`, `dedupeList` in the realtime service). -/
def dedupeList (l : List AttendanceEntry) : List AttendanceEntry :=
  l.foldl insertMerge []

/-! ## Realtime attendance INSERT (`RealtimeService.processAttendanceChange`) -/
/-- The INSERT branch of `RealtimeService.processAttendanceChange`: first an
identifier match (replace in place), then a fuzzy match (replace the first
one by `pickBetter(existing, new)` and re-deduplicate), otherwise prepend the
new event and re-deduplicate. -/
def processAttendanceInsert (list : List AttendanceEntry) (n : AttendanceEntry) :
    List AttendanceEntry :=
  match replaceFirst (fun r => r.id = n.id) (fun _ => n) list with
  | some l => l
  | none =>
    match replaceFirst (fun r => fuzzySame r n) (fun r => pickBetter r n) list with
    | some l => dedupeList l
    | none => dedupeList (n :: list)

/-! ## Offline envelope and service plumbing -/
/-- Outcome of a fallible (asynchronous) call: a JavaScript promise either
resolves with a value or rejects with an error message. -/
inductive OpResult (α : Type) where
  | ok (value : α)
  | err (msg : String)
  deriving DecidableEq, Repr

/-- A student row as the sync layer holds it locally (`autoSyncService.ts`
mapping, lines 416-424).  `dirty` is the `_dirty` offline-edit flag.  Fields
that never influence a branch of the embedded logic (qrCode, year, lastScan,
registrationDate, …) are carried through the code unchanged and omitted
here. -/
structure Student where
  id : String
  name : String
  studentId : String
  email : String
  department : String
  biometricData : String
  rfid : String
  library : String
  dirty : Bool
  deriving DecidableEq, Repr

/-- The `OfflineData` envelope of `src/utils/offlineStorage.ts`:
`fullSyncCompleted` is optional in the TypeScript interface, so `none`
models an absent key (JavaScript `undefined`). -/
structure OfflineData where
  students : List Student
  attendanceRecords : List AttendanceEntry
  documents : List String
  lastSync : Option String
  fullSyncCompleted : Option Bool
  deriving DecidableEq, Repr

/-- Embeds `Partial<OfflineData>`: each field may be absent from a `save` call.
For `lastSync` a supplied `null` and an absent key behave identically in
every consumer (both are falsy), so both are `none`. -/
structure OfflinePartial where
  students : Option (List Student) := none
  attendanceRecords : Option (List AttendanceEntry) := none
  documents : Option (List String) := none
  lastSync : Option String := none
  fullSyncCompleted : Option Bool := none
  deriving DecidableEq, Repr

/-- Applying a partial save to an in-memory envelope: supplied fields
replace, absent fields keep their previous value. -/
def applyPartial (p : OfflinePartial) (d : OfflineData) : OfflineData :=
  { students := p.students.getD d.students,
    attendanceRecords := p.attendanceRecords.getD d.attendanceRecords,
    documents := p.documents.getD d.documents,
    lastSync := match p.lastSync with | some v => some v | none => d.lastSync,
    fullSyncCompleted :=
      match p.fullSyncCompleted with | some v => some v | none => d.fullSyncCompleted }

/-- JavaScript truthiness of the optional `fullSyncCompleted` flag
(`!localData.fullSyncCompleted` treats an absent key and `false` alike). -/
def fullSyncFlag (d : OfflineData) : Bool := d.fullSyncCompleted.getD false

/-- Embeds `getFromLocalStorage` (`src/utils/offlineStorage.ts`, lines 20-32): wrap
the storage manager's `load` in try/catch and fall back to the empty
envelope (whose literal carries no `fullSyncCompleted` key) on any failure.
The result type records that the wrapper itself is total: it never
propagates the load error. -/
def getFromLocalStorage (loadResult : OpResult OfflineData) : OfflineData :=
  match loadResult with
  | .ok d => d
  | .err _ =>
    { students := [], attendanceRecords := [], documents := [], lastSync := none,
      fullSyncCompleted := none }

/-! ## Sync throttle (`AutoSyncService.performSync` / `forceSync`) -/
/-- Constant `MIN_SYNC_INTERVAL = 30000`. -/
def minSyncIntervalMs : Int := 30000

/-- The throttle gate at the head of `performSync(forceSync = false)`: when
not forced and the previous cycle started less than 30 s ago the cycle is
skipped and `lastSyncTime` is left unchanged; otherwise the cycle body runs
and `lastSyncTime` is set to `now`.  Returns (cycle runs?, new
`lastSyncTime`). -/
def performSyncStep (forceSync : Bool) (now lastSyncTime : Int) : Bool × Int :=
  if forceSync = false ∧ now - lastSyncTime < minSyncIntervalMs then (false, lastSyncTime)
  else (true, now)

/-- The public `forceSync()` method: it calls `this.performSync()` with no
argument, so the `forceSync` parameter takes its default value `false`. -/
def forceSyncStep (now lastSyncTime : Int) : Bool × Int :=
  performSyncStep false now lastSyncTime

/-! ## Cooldown (`attendanceService.addAttendanceRecord`) -/
/-- Constant `COOLDOWN_SECONDS = 300`, in milliseconds. -/
def cooldownMs : Int := 300000

/-- Most recent of a list of timestamps (the source sorts descending and
takes the head; the maximum is the same value). -/
def latestTimestamp : List Int → Option Int
  | [] => none
  | t :: ts =>
    match latestTimestamp ts with
    | none => some t
    | some m => some (max t m)

/-- Embeds `record.studentDatabaseId || record.studentId` (string truthiness: an
absent `studentDatabaseId` is the empty string). -/
def cooldownIdent (record : AttendanceEntry) : String :=
  if record.studentDatabaseId ≠ "" then record.studentDatabaseId else record.studentId

/-- The local-record filter of `getLastAttendanceTimestamp`: identifier
matches either column and the direction matches. -/
def matchesCooldownQuery (ident actionType : String) (r : AttendanceEntry) : Bool :=
  (r.studentDatabaseId == ident || r.studentId == ident) && r.type == actionType

/-- Embeds `getLastAttendanceTimestamp`: the latest timestamp among matching local
records plus (when online and the query succeeds) the server's latest
matching record, passed in as `serverLatest`. -/
def getLastAttendanceTimestamp (store : List AttendanceEntry) (serverLatest : Option Int)
    (ident actionType : String) : Option Int :=
  latestTimestamp
    (((store.filter (matchesCooldownQuery ident actionType)).map (fun r => r.timestamp)) ++
      (match serverLatest with | some t => [t] | none => []))

/-- Embeds `addAttendanceRecord`: reject with a `COOLDOWN:<min>:<sec>` error when a
same-direction action for the same student happened less than 300 s ago,
leaving the store untouched; otherwise append the new record (under the
freshly generated local identifier `newId`).  `remaining` is
`Math.ceil(300 - elapsed/1000)` computed in milliseconds.  Returns the
persisted list and the error message, if any. -/
def addAttendanceRecord (now : Int) (newId : String) (record : AttendanceEntry)
    (serverLatest : Option Int) (store : List AttendanceEntry) :
    List AttendanceEntry × Option String :=
  match getLastAttendanceTimestamp store serverLatest (cooldownIdent record) record.type with
  | some last =>
    if now - last < cooldownMs then
      let remaining := (cooldownMs - (now - last) + 999).ediv 1000
      (store,
        some ("COOLDOWN:" ++ toString (remaining.ediv 60) ++ ":" ++ toString (remaining.emod 60)))
    else (store ++ [{ record with id := newId }], none)
  | none => (store ++ [{ record with id := newId }], none)

/-! ## Flat fallback driver (`LocalStorageDriver` in
`src/utils/storage/indexedDbStorage.ts` / `localStorageDriver.ts`) -/
/-- Embeds `LocalStorageDriver.load`: parse the single stored blob, or return the
empty envelope when nothing is stored (or parsing fails).  The parsed JSON
object is modelled by `OfflineData` itself, its `fullSyncCompleted` field
recording whether the key is present in the blob; the timestamp-revival maps
are identities here. -/
def lsLoad (blob : Option OfflineData) : OfflineData :=
  match blob with
  | some parsed => parsed
  | none =>
    { students := [], attendanceRecords := [], documents := [], lastSync := none,
      fullSyncCompleted := none }

/-- JavaScript `a || b || null` over nullable strings (the empty string is
falsy). -/
def jsOrStr (a b : Option String) : Option String :=
  if a.getD "" ≠ "" then a else if b.getD "" ≠ "" then b else none

/-- Insert into an association list the way a JavaScript `Map` built by
successive `set` calls behaves: an existing key keeps its position and takes
the new value; a new key goes to the end. -/
def upsertByKey {α : Type} {κ : Type} [DecidableEq κ] (key : α → κ) :
    List (κ × α) → α → List (κ × α)
  | [], x => [(key x, x)]
  | (k, v) :: rest, x =>
    if k = key x then (k, x) :: rest else (k, v) :: upsertByKey key rest x

/-- Embeds `Array.from(new Map(l.map(x => [key(x), x])).values())`: last value per
key, in first-insertion order. -/
def mapValuesByKey {α : Type} {κ : Type} [DecidableEq κ] (key : α → κ)
    (l : List α) : List α :=
  (l.foldl (upsertByKey key) []).map Prod.snd

/-- The driver's composite attendance key
`` `${studentId}-${timestampISO}-${type}` `` (the ISO rendering is injective
in the timestamp, so the key is modelled as the tuple). -/
def lsAttKey (r : AttendanceEntry) : String × Int × String :=
  (r.studentId, r.timestamp, r.type)

/-- Embeds `LocalStorageDriver.save`: read-merge-write of the single blob.  The
merged `updated` object is assembled from `students`, `attendanceRecords`,
`documents` and `lastSync` only (source lines 248-253), so the serialized
blob never carries a `fullSyncCompleted` key — not even when the incoming
partial supplies one. -/
def lsSave (data : OfflinePartial) (blob : Option OfflineData) : Option OfflineData :=
  let existing := lsLoad blob
  let allAttendance := existing.attendanceRecords ++ data.attendanceRecords.getD []
  let allStudents := existing.students ++ data.students.getD []
  some { students := mapValuesByKey (fun s => s.studentId) allStudents,
         attendanceRecords := mapValuesByKey lsAttKey allAttendance,
         documents := data.documents.getD existing.documents,
         lastSync := jsOrStr data.lastSync existing.lastSync,
         fullSyncCompleted := none }

/-! ## Storage Manager (`src/utils/storage/manager.ts`) -/
/-- One storage driver's behaviour for the operation sequence under
consideration: its availability probe and the outcome of each contract
operation. -/
structure StorageDriver where
  available : Bool
  loadResult : OpResult OfflineData
  saveResult : OpResult Unit
  clearResult : OpResult Unit
  deriving DecidableEq, Repr

/-- Did the operation succeed? -/
def opOk {α : Type} : OpResult α → Bool
  | .ok _ => true
  | .err _ => false

/-- The fallback walk of `save`: scan the drivers after the active one (the
list argument is `drivers.drop (cur+1)`, `base` the absolute index of its
head) for the first driver that reports available and whose `save`
succeeds; return its index. -/
def walkSave : List StorageDriver → Nat → Option Nat
  | [], _ => none
  | d :: rest, base =>
    if d.available && opOk d.saveResult then some base else walkSave rest (base + 1)

/-- Embeds `StorageManager.save` (post-init): delegate to the active driver; on
failure walk the remaining drivers, switching the active index to the first
that succeeds; rethrow the active driver's error when every fallback
fails.  Returns the index of the active driver after the call. -/
def managerSave (drivers : List StorageDriver) (cur : Nat) : OpResult Nat :=
  match drivers[cur]? with
  | none => .err "No storage driver initialized"
  | some d =>
    match d.saveResult with
    | .ok _ => .ok cur
    | .err e =>
      match walkSave (drivers.drop (cur + 1)) (cur + 1) with
      | some j => .ok j
      | none => .err e

/-- The fallback walk of `load`: also returns the recovered data. -/
def walkLoad : List StorageDriver → Nat → Option (OfflineData × Nat)
  | [], _ => none
  | d :: rest, base =>
    if d.available then
      match d.loadResult with
      | .ok v => some (v, base)
      | .err _ => walkLoad rest (base + 1)
    else walkLoad rest (base + 1)

/-- Embeds `StorageManager.load` (post-init): like `save`, with the loaded envelope
returned alongside the new active index. -/
def managerLoad (drivers : List StorageDriver) (cur : Nat) :
    OpResult (OfflineData × Nat) :=
  match drivers[cur]? with
  | none => .err "No storage driver initialized"
  | some d =>
    match d.loadResult with
    | .ok v => .ok (v, cur)
    | .err e =>
      match walkLoad (drivers.drop (cur + 1)) (cur + 1) with
      | some r => .ok r
      | none => .err e

/-- Embeds `StorageManager.clear` (post-init, `manager.ts` lines 139-149): a bare
`await this.currentDriver.clear()` — there is no try/catch and no fallback
walk in this method. -/
def managerClear (drivers : List StorageDriver) (cur : Nat) : OpResult Nat :=
  match drivers[cur]? with
  | none => .err "No storage driver initialized"
  | some d =>
    match d.clearResult with
    | .ok _ => .ok cur
    | .err e => .err e

/-! ## Pull pass (`AutoSyncService.syncSupabaseToLocal`) -/
/-- A student row as returned by the remote `students` table (snake_case wire
format; nullable columns are `Option`). -/
structure RemoteStudentRow where
  id : String
  name : String
  student_id : String
  email : Option String
  course : Option String
  biometric_data : Option String
  rfid : Option String
  library : Option String
  deriving DecidableEq, Repr

/-- An attendance row as returned by the remote `attendance_records` table.
Wire columns that are carried through unchanged and never branch the
embedded logic (barcode, method, purpose, contact, library, year, user_type,
student_type, level) are omitted. -/
structure RemoteAttendanceRow where
  id : String
  student_database_id : Option String
  student_id : String
  student_name : String
  timestamp : Int
  type : Option String
  course : Option String
  deriving DecidableEq, Repr

/-- JavaScript `o || dflt` for a nullable string (empty string is falsy). -/
def jsStrOr (o : Option String) (dflt : String) : String :=
  match o with
  | some s => if s ≠ "" then s else dflt
  | none => dflt

/-- Wire-to-domain mapping for students (`syncSupabaseToLocal`,
lines 416-425).  A fetched row is never dirty. -/
def mapRemoteStudent (s : RemoteStudentRow) : Student :=
  { id := s.id, name := s.name, studentId := s.student_id,
    email := s.email.getD "", department := s.course.getD "",
    biometricData := s.biometric_data.getD "", rfid := s.rfid.getD "",
    library := jsStrOr s.library "notre-dame", dirty := false }

/-- Wire-to-domain mapping for attendance rows (lines 427-444):
`type || 'check-in'`. -/
def mapRemoteAttendance (r : RemoteAttendanceRow) : AttendanceEntry :=
  { id := r.id, studentDatabaseId := r.student_database_id.getD "",
    studentId := r.student_id, studentName := r.student_name,
    timestamp := r.timestamp, type := jsStrOr r.type "check-in",
    course := r.course.getD "" }

/-- Constant for 30 days in milliseconds (`thirtyDaysAgo`). -/
def thirtyDaysMs : Int := 2592000000

/-- The remote query issued by one pull pass: the attendance query carries a
`gte(timestamp, thirtyDaysAgo)` lower bound exactly when this is not the
first sync (`needsFullDownload = !localData.fullSyncCompleted`); the
students query is always issued unfiltered (lines 398-411). -/
structure PullQuery where
  attendanceSince : Option Int
  studentsSince : Option Int
  deriving DecidableEq, Repr

/-- Build the pull query from the loaded envelope. -/
def pullRequest (localData : OfflineData) (now : Int) : PullQuery :=
  { attendanceSince :=
      if fullSyncFlag localData then some (now - thirtyDaysMs) else none,
    studentsSince := none }

/-- The two responses of the `Promise.all`; each may carry a query error. -/
structure PullResponse where
  students : OpResult (List RemoteStudentRow)
  attendance : OpResult (List RemoteAttendanceRow)
  deriving DecidableEq, Repr

/-- Embeds `localOnlyStudents`: ids with the `local_` placeholder prefix. -/
def localOnlyStudents (d : OfflineData) : List Student :=
  d.students.filter (fun s => isLocalId s.id)

/-- Embeds `localOnlyRecords`: not-yet-synced attendance (non-UUID id or `local_`
prefix) from the last 30 days. -/
def localOnlyRecords (d : OfflineData) (now : Int) : List AttendanceEntry :=
  d.attendanceRecords.filter (fun r =>
    (!isUUID r.id || isLocalId r.id) && decide (now - thirtyDaysMs ≤ r.timestamp))

/-- Students edited offline: already synced (no `local_` prefix) and flagged
`_dirty`. -/
def dirtyStudents (d : OfflineData) : List Student :=
  d.students.filter (fun s => !isLocalId s.id && s.dirty)

/-- The dirty-student overlay: `Object.fromEntries` keeps the last entry per
id, and the spread replaces every field, so a fetched row with a dirty local
edit becomes that local edit. -/
def overlayStudent (dirty : List Student) (s : Student) : Student :=
  match dirty.reverse.find? (fun t => t.id == s.id) with
  | some t => t
  | none => s

/-- The body of `syncSupabaseToLocal` after the fetch resolves: `none` when
either response carries an error (`if (!studentsResponse.error &&
!attendanceResponse.error)` fails, so nothing is saved); otherwise the
`saveToLocalStorage` argument built from the merge. -/
def syncPullSave (localData : OfflineData) (resp : PullResponse) (nowIso : String)
    (now : Int) : Option OfflinePartial :=
  match resp.students, resp.attendance with
  | .ok sRows, .ok aRows =>
    let students := sRows.map mapRemoteStudent
    let attendanceRecords := aRows.map mapRemoteAttendance
    let lOnlyS := localOnlyStudents localData
    let lOnlyR := localOnlyRecords localData now
    let overlayed := students.map (overlayStudent (dirtyStudents localData))
    let deduped := dedupeList (attendanceRecords ++ lOnlyR)
    let finalStudents := if students.isEmpty then lOnlyS else overlayed ++ lOnlyS
    let finalAttendance := if attendanceRecords.isEmpty then lOnlyR else deduped
    some { students := some finalStudents,
           attendanceRecords := some finalAttendance,
           lastSync := some nowIso,
           fullSyncCompleted := some true }
  | _, _ => none

/-- The whole pull pass: a rejected fetch (network error) is swallowed by
the surrounding try/catch and nothing is saved. -/
def syncSupabaseToLocal (localData : OfflineData) (fetch : OpResult PullResponse)
    (nowIso : String) (now : Int) : Option OfflinePartial :=
  match fetch with
  | .err _ => none
  | .ok resp => syncPullSave localData resp nowIso now

/-- The envelope persisted after one pull pass over starting envelope
`store`: unchanged when the pass saves nothing. -/
def pullPassPersist (store : OfflineData) (fetch : OpResult PullResponse)
    (nowIso : String) (now : Int) : OfflineData :=
  match syncSupabaseToLocal store fetch nowIso now with
  | none => store
  | some p => applyPartial p store

/-! ## Properties -/

lemma mem_insertDesc {z x : AttendanceEntry} {l : List AttendanceEntry}
    (h : z ∈ insertDesc x l) : z = x ∨ z ∈ l := by
  induction l with
  | nil => simpa [insertDesc] using h
  | cons y ys ih =>
    by_cases hc : y.timestamp ≤ x.timestamp
    · simpa [insertDesc, hc] using h
    · simp only [insertDesc, if_neg hc, List.mem_cons] at h
      rcases h with h | h
      · exact Or.inr (by simp [h])
      · rcases ih h with h' | h'
        · exact Or.inl h'
        · exact Or.inr (by simp [h'])

lemma insertDesc_sorted {x : AttendanceEntry} {l : List AttendanceEntry}
    (h : SortedDesc l) : SortedDesc (insertDesc x l) := by
  induction l with
  | nil => simp [insertDesc, SortedDesc]
  | cons y ys ih =>
    rcases (List.pairwise_cons.mp h) with ⟨hy, hys⟩
    by_cases hc : y.timestamp ≤ x.timestamp
    · rw [insertDesc, if_pos hc]
      refine List.pairwise_cons.mpr ⟨?_, h⟩
      intro b hb
      rcases List.mem_cons.mp hb with rfl | hb
      · exact hc
      · exact le_trans (hy b hb) hc
    · rw [insertDesc, if_neg hc]
      refine List.pairwise_cons.mpr ⟨?_, ih hys⟩
      intro b hb
      rcases mem_insertDesc hb with rfl | hb
      · exact le_of_not_le hc
      · exact hy b hb

lemma insertDesc_perm (x : AttendanceEntry) (l : List AttendanceEntry) :
    List.Perm (insertDesc x l) (x :: l) := by
  induction l with
  | nil => simp [insertDesc]
  | cons y ys ih =>
    by_cases hc : y.timestamp ≤ x.timestamp
    · simp [insertDesc, hc]
    · simp only [insertDesc, if_neg hc]
      exact (ih.cons y).trans (List.Perm.swap x y ys)

lemma sortDesc_sorted (l : List AttendanceEntry) : SortedDesc (sortDesc l) := by
  induction l with
  | nil => simp [sortDesc, SortedDesc]
  | cons x xs ih => exact insertDesc_sorted ih

lemma sortDesc_perm (l : List AttendanceEntry) : List.Perm (sortDesc l) l := by
  induction l with
  | nil => simp [sortDesc]
  | cons x xs ih => exact (insertDesc_perm x (sortDesc xs)).trans (ih.cons x)

lemma sortDesc_eq_of_sorted {l : List AttendanceEntry} (h : SortedDesc l) :
    sortDesc l = l := by
  induction l with
  | nil => rfl
  | cons x xs ih =>
    rcases (List.pairwise_cons.mp h) with ⟨hx, hxs⟩
    rw [sortDesc, ih hxs]
    cases xs with
    | nil => rfl
    | cons y ys => simp [insertDesc, hx y (by simp)]

lemma dedupPass_sublist (l : List AttendanceEntry)
    (seen : List (String × String × Int)) : List.Sublist (dedupPass l seen) l := by
  induction l generalizing seen with
  | nil => simp [dedupPass]
  | cons r rs ih =>
    by_cases hc : secKey r ∈ seen
    · simpa [dedupPass, hc] using (ih seen).cons r
    · simpa [dedupPass, hc] using (ih (secKey r :: seen)).cons₂ r

lemma secKey_dedupPass_not_seen {k : String × String × Int}
    {l : List AttendanceEntry} {seen : List (String × String × Int)}
    (h : k ∈ (dedupPass l seen).map secKey) : k ∉ seen := by
  induction l generalizing seen with
  | nil => simp [dedupPass] at h
  | cons r rs ih =>
    by_cases hc : secKey r ∈ seen
    · exact ih (by simpa [dedupPass, hc] using h)
    · simp only [dedupPass, if_neg hc, List.map_cons, List.mem_cons] at h
      rcases h with rfl | h
      · exact hc
      · intro hk
        exact ih h (List.mem_cons_of_mem _ hk)

lemma dedupPass_keys_nodup (l : List AttendanceEntry)
    (seen : List (String × String × Int)) :
    ((dedupPass l seen).map secKey).Nodup := by
  induction l generalizing seen with
  | nil => simp [dedupPass]
  | cons r rs ih =>
    by_cases hc : secKey r ∈ seen
    · simpa [dedupPass, hc] using ih seen
    · simp only [dedupPass, if_neg hc, List.map_cons]
      refine List.nodup_cons.mpr ⟨?_, ih (secKey r :: seen)⟩
      intro hk
      exact (secKey_dedupPass_not_seen hk) (by simp)

lemma dedupPass_eq_self {l : List AttendanceEntry}
    {seen : List (String × String × Int)}
    (hnd : (l.map secKey).Nodup) (hseen : ∀ r ∈ l, secKey r ∉ seen) :
    dedupPass l seen = l := by
  induction l generalizing seen with
  | nil => rfl
  | cons r rs ih =>
    have hr : secKey r ∉ seen := hseen r (by simp)
    simp only [List.map_cons, List.nodup_cons] at hnd
    rw [dedupPass, if_neg hr, ih hnd.2]
    intro r' hr'
    simp only [List.mem_cons, not_or]
    refine ⟨?_, hseen r' (List.mem_cons_of_mem _ hr')⟩
    intro he
    exact hnd.1 (he ▸ List.mem_map_of_mem secKey hr')

/-- C2: the exact-key deduplication is idempotent: deduplicating an
already-deduplicated attendance list changes nothing.  The function groups by
(studentId, type, timestamp truncated to the second), keeps the
latest-timestamp entry of each group (first occurrence of the key after the
stable newest-first sort), and returns the result sorted descending by
timestamp. -/
theorem deduplicateAttendance_idempotent (L : List AttendanceEntry) :
    deduplicateAttendance (deduplicateAttendance L) = deduplicateAttendance L := by
  set D := deduplicateAttendance L with hD
  have hsorted : SortedDesc D := sortDesc_sorted _
  have hkeys : (D.map secKey).Nodup := by
    have hperm : List.Perm (D.map secKey) ((dedupPass (sortDesc L) []).map secKey) :=
      (sortDesc_perm _).map secKey
    exact hperm.nodup_iff.mpr (dedupPass_keys_nodup _ _)
  calc deduplicateAttendance D
      = sortDesc (dedupPass (sortDesc D) []) := rfl
    _ = sortDesc (dedupPass D []) := by rw [sortDesc_eq_of_sorted hsorted]
    _ = sortDesc D := by rw [dedupPass_eq_self hkeys (by simp)]
    _ = D := sortDesc_eq_of_sorted hsorted

/-- C1: two entries with the same business key and direction whose timestamps
are within 10 seconds are merged into exactly one entry, `pickBetter a b`,
and `pickBetter` implements the documented precedence: (a) the entry with a
non-empty course wins; (b) otherwise, when exactly one entry carries a
locally generated `local_` placeholder identifier, the entry with the
permanent (non-placeholder) identifier wins; (c) otherwise the later
timestamp wins, the first entry winning ties. -/
theorem fuzzyMerge_pair_resolution (a b : AttendanceEntry)
    (hkey : a.studentId = b.studentId) (hdir : a.type = b.type)
    (hwin : (a.timestamp - b.timestamp).natAbs ≤ 10000) :
    dedupeList [a, b] = [pickBetter a b] ∧
    (a.course ≠ "" ∧ b.course = "" → pickBetter a b = a) ∧
    (b.course ≠ "" ∧ a.course = "" → pickBetter a b = b) ∧
    ((a.course = "" ↔ b.course = "") →
      (isLocalId a.id = true ∧ isLocalId b.id = false → pickBetter a b = b) ∧
      (isLocalId b.id = true ∧ isLocalId a.id = false → pickBetter a b = a) ∧
      (isLocalId a.id = isLocalId b.id →
        pickBetter a b = if b.timestamp ≤ a.timestamp then a else b)) := by
  refine ⟨?_, ?_, ?_, ?_⟩
  · have hf : fuzzySame a b := ⟨hkey, hdir, hwin⟩
    simp [dedupeList, insertMerge, replaceFirst, hf]
  · intro h
    rw [pickBetter, if_pos h]
  · intro h
    rw [pickBetter, if_neg (fun hc => hc.1 h.2), if_pos h]
  · intro hEq
    have h1 : ¬(a.course ≠ "" ∧ b.course = "") := fun hc => hc.1 (hEq.mpr hc.2)
    have h2 : ¬(b.course ≠ "" ∧ a.course = "") := fun hc => hc.1 (hEq.mp hc.2)
    refine ⟨?_, ?_, ?_⟩
    · intro h
      rw [pickBetter, if_neg h1, if_neg h2, if_pos h]
    · intro h
      have h3 : ¬(isLocalId a.id = true ∧ isLocalId b.id = false) := fun hc =>
        absurd (hc.1.symm.trans h.2) (by simp)
      rw [pickBetter, if_neg h1, if_neg h2, if_neg h3, if_pos h]
    · intro h
      have h3 : ¬(isLocalId a.id = true ∧ isLocalId b.id = false) := fun hc =>
        absurd ((hc.1.symm.trans h).trans hc.2) (by simp)
      have h4 : ¬(isLocalId b.id = true ∧ isLocalId a.id = false) := fun hc =>
        absurd ((hc.1.symm.trans h.symm).trans hc.2) (by simp)
      rw [pickBetter, if_neg h1, if_neg h2, if_neg h3, if_neg h4]

/-- Witness for C1 at a concrete conflicting pair: the local placeholder
entry carries the course while the remote entry has a later timestamp and no
course, so the merge keeps the enriched local entry. -/
theorem fuzzyMerge_pair_resolution_witness :
    dedupeList
        [(⟨"local_17", "", "S123", "Ana", 1000, "check-in", "BSIT"⟩ : AttendanceEntry),
         (⟨"9f8b1c2d-aa11-4bc2-9e10-1234567890ab", "", "S123", "Ana", 9000, "check-in", ""⟩ : AttendanceEntry)] =
      [(⟨"local_17", "", "S123", "Ana", 1000, "check-in", "BSIT"⟩ : AttendanceEntry)] := by
  have h := fuzzyMerge_pair_resolution
    (⟨"local_17", "", "S123", "Ana", 1000, "check-in", "BSIT"⟩ : AttendanceEntry)
    (⟨"9f8b1c2d-aa11-4bc2-9e10-1234567890ab", "", "S123", "Ana", 9000, "check-in", ""⟩ : AttendanceEntry)
    rfl rfl (by decide)
  have hc := h.2.1 (by decide)
  rw [h.1, hc]

lemma replaceFirst_length {p : AttendanceEntry → Prop} [DecidablePred p]
    {f : AttendanceEntry → AttendanceEntry} {l l' : List AttendanceEntry}
    (h : replaceFirst p f l = some l') : l'.length = l.length := by
  induction l generalizing l' with
  | nil => rw [replaceFirst] at h; exact Option.noConfusion h
  | cons x xs ih =>
    by_cases hp : p x
    · rw [replaceFirst, if_pos hp] at h
      cases h
      simp
    · rw [replaceFirst, if_neg hp] at h
      rcases Option.map_eq_some'.mp h with ⟨xs', hx, rfl⟩
      simp [ih hx]

lemma replaceFirst_eq_none {p : AttendanceEntry → Prop} [DecidablePred p]
    {f : AttendanceEntry → AttendanceEntry} {l : List AttendanceEntry}
    (h : ∀ x ∈ l, ¬ p x) : replaceFirst p f l = none := by
  induction l with
  | nil => rfl
  | cons x xs ih =>
    rw [replaceFirst, if_neg (h x (by simp))]
    rw [ih (fun y hy => h y (List.mem_cons_of_mem _ hy))]
    rfl

lemma replaceFirst_isSome {p : AttendanceEntry → Prop} [DecidablePred p]
    (f : AttendanceEntry → AttendanceEntry) {l : List AttendanceEntry}
    (h : ∃ x ∈ l, p x) : ∃ l', replaceFirst p f l = some l' := by
  induction l with
  | nil => simp at h
  | cons x xs ih =>
    by_cases hp : p x
    · exact ⟨f x :: xs, by rw [replaceFirst, if_pos hp]⟩
    · have hx : ∃ y ∈ xs, p y := by
        obtain ⟨y, hy, hpy⟩ := h
        rcases List.mem_cons.mp hy with rfl | hy
        · exact absurd hpy hp
        · exact ⟨y, hy, hpy⟩
      obtain ⟨xs', hxs⟩ := ih hx
      exact ⟨x :: xs', by rw [replaceFirst, if_neg hp, hxs]; rfl⟩

lemma replaceFirst_const_idem {p : AttendanceEntry → Prop} [DecidablePred p]
    {n : AttendanceEntry} {l l' : List AttendanceEntry} (hn : p n)
    (h : replaceFirst p (fun _ => n) l = some l') :
    replaceFirst p (fun _ => n) l' = some l' := by
  induction l generalizing l' with
  | nil => rw [replaceFirst] at h; exact Option.noConfusion h
  | cons x xs ih =>
    by_cases hp : p x
    · rw [replaceFirst, if_pos hp] at h
      cases h
      rw [replaceFirst, if_pos hn]
    · rw [replaceFirst, if_neg hp] at h
      rcases Option.map_eq_some'.mp h with ⟨xs', hx, rfl⟩
      rw [replaceFirst, if_neg hp, ih hx]
      rfl

lemma insertMerge_length (out : List AttendanceEntry) (r : AttendanceEntry) :
    (insertMerge out r).length ≤ out.length + 1 := by
  rw [insertMerge]
  cases hx : replaceFirst (fun c => fuzzySame c r) (fun c => pickBetter c r) out with
  | none => simp
  | some out2 => simp [replaceFirst_length hx]

lemma foldl_insertMerge_length (l : List AttendanceEntry) (acc : List AttendanceEntry) :
    (List.foldl insertMerge acc l).length ≤ acc.length + l.length := by
  induction l generalizing acc with
  | nil => simp
  | cons r rs ih =>
    calc (List.foldl insertMerge (insertMerge acc r) rs).length
        ≤ (insertMerge acc r).length + rs.length := ih _
      _ ≤ acc.length + 1 + rs.length := by
          exact Nat.add_le_add_right (insertMerge_length acc r) _
      _ = acc.length + (r :: rs).length := by simp [Nat.add_assoc, Nat.add_comm 1]

lemma dedupeList_length_le (l : List AttendanceEntry) :
    (dedupeList l).length ≤ l.length := by
  simpa using foldl_insertMerge_length l []

lemma fuzzySame_symm {c r : AttendanceEntry} (h : fuzzySame c r) : fuzzySame r c := by
  obtain ⟨h1, h2, h3⟩ := h
  refine ⟨h1.symm, h2.symm, ?_⟩
  rw [show r.timestamp - c.timestamp = -(c.timestamp - r.timestamp) by ring, Int.natAbs_neg]
  exact h3

lemma insertMerge_cons_of_not {x r : AttendanceEntry} (acc : List AttendanceEntry)
    (h : ¬ fuzzySame x r) :
    ∃ acc', insertMerge (x :: acc) r = x :: acc' := by
  rw [insertMerge, replaceFirst, if_neg h]
  cases hx : replaceFirst (fun c => fuzzySame c r) (fun c => pickBetter c r) acc with
  | none => exact ⟨acc ++ [r], by simp⟩
  | some acc2 => exact ⟨acc2, by simp⟩

lemma foldl_insertMerge_cons {x : AttendanceEntry} {l : List AttendanceEntry}
    (acc : List AttendanceEntry) (h : ∀ r ∈ l, ¬ fuzzySame x r) :
    ∃ t, List.foldl insertMerge (x :: acc) l = x :: t := by
  induction l generalizing acc with
  | nil => exact ⟨acc, rfl⟩
  | cons r rs ih =>
    obtain ⟨acc', hacc⟩ := insertMerge_cons_of_not acc (h r (by simp))
    rw [List.foldl_cons, hacc]
    exact ih acc' (fun r' hr' => h r' (List.mem_cons_of_mem _ hr'))

/-- C8: applying an attendance INSERT notification. (1) If an entry with the
incoming identifier already exists, the first such entry is replaced in
place, the list does not grow, and re-applying the same INSERT changes
nothing. (2) Otherwise, if some entry fuzzy-matches the incoming event (same
business key and direction within 10 seconds), the first such entry is
replaced by the `pickBetter` resolution and the list does not grow. (3) Only
when neither match exists is the incoming event prepended: it remains the
head of the resulting list. -/
theorem processAttendanceInsert_spec (list : List AttendanceEntry) (n : AttendanceEntry) :
    ((∃ r ∈ list, r.id = n.id) →
      ∃ l₁, replaceFirst (fun r => r.id = n.id) (fun _ => n) list = some l₁ ∧
        processAttendanceInsert list n = l₁ ∧
        l₁.length = list.length ∧
        processAttendanceInsert (processAttendanceInsert list n) n =
          processAttendanceInsert list n) ∧
    ((∀ r ∈ list, r.id ≠ n.id) → ∀ l₂,
      replaceFirst (fun r => fuzzySame r n) (fun r => pickBetter r n) list = some l₂ →
        processAttendanceInsert list n = dedupeList l₂ ∧
        (processAttendanceInsert list n).length ≤ list.length) ∧
    ((∀ r ∈ list, r.id ≠ n.id) → (∀ r ∈ list, ¬ fuzzySame r n) →
      processAttendanceInsert list n = dedupeList (n :: list) ∧
      ∃ t, processAttendanceInsert list n = n :: t) := by
  refine ⟨?_, ?_, ?_⟩
  · intro hex
    obtain ⟨l₁, hl₁⟩ := replaceFirst_isSome (fun _ => n) hex
    have hres : processAttendanceInsert list n = l₁ := by
      rw [processAttendanceInsert, hl₁]
    refine ⟨l₁, hl₁, hres, replaceFirst_length hl₁, ?_⟩
    have hidem := replaceFirst_const_idem (p := fun r => r.id = n.id) rfl hl₁
    rw [hres, processAttendanceInsert, hidem]
  · intro hid l₂ hl₂
    have hnone : replaceFirst (fun r => r.id = n.id) (fun _ => n) list = none :=
      replaceFirst_eq_none hid
    have hres : processAttendanceInsert list n = dedupeList l₂ := by
      rw [processAttendanceInsert, hnone, hl₂]
    refine ⟨hres, ?_⟩
    rw [hres]
    calc (dedupeList l₂).length ≤ l₂.length := dedupeList_length_le _
      _ = list.length := replaceFirst_length hl₂
  · intro hid hfuzz
    have hnone : replaceFirst (fun r => r.id = n.id) (fun _ => n) list = none :=
      replaceFirst_eq_none hid
    have hnone2 :
        replaceFirst (fun r => fuzzySame r n) (fun r => pickBetter r n) list = none :=
      replaceFirst_eq_none hfuzz
    have hres : processAttendanceInsert list n = dedupeList (n :: list) := by
      rw [processAttendanceInsert, hnone, hnone2]
    refine ⟨hres, ?_⟩
    rw [hres]
    have hhead : insertMerge [] n = [n] := by rfl
    rw [dedupeList, List.foldl_cons, hhead]
    exact foldl_insertMerge_cons []
      (fun r hr hc => hfuzz r hr (fuzzySame_symm hc))

/-- Witness for C8 at a concrete input: re-delivering an INSERT whose
identifier is already present replaces the stored entry and is idempotent. -/
theorem processAttendanceInsert_spec_witness :
    processAttendanceInsert
        (processAttendanceInsert
          [(⟨"9f8b1c2d-aa11-4bc2-9e10-1234567890ab", "", "S123", "Ana", 1000, "check-in", ""⟩ : AttendanceEntry)]
          (⟨"9f8b1c2d-aa11-4bc2-9e10-1234567890ab", "", "S123", "Ana", 1000, "check-in", "BSIT"⟩ : AttendanceEntry))
        (⟨"9f8b1c2d-aa11-4bc2-9e10-1234567890ab", "", "S123", "Ana", 1000, "check-in", "BSIT"⟩ : AttendanceEntry) =
      processAttendanceInsert
        [(⟨"9f8b1c2d-aa11-4bc2-9e10-1234567890ab", "", "S123", "Ana", 1000, "check-in", ""⟩ : AttendanceEntry)]
        (⟨"9f8b1c2d-aa11-4bc2-9e10-1234567890ab", "", "S123", "Ana", 1000, "check-in", "BSIT"⟩ : AttendanceEntry) := by
  obtain ⟨l₁, -, -, -, hidem⟩ :=
    (processAttendanceInsert_spec
      [(⟨"9f8b1c2d-aa11-4bc2-9e10-1234567890ab", "", "S123", "Ana", 1000, "check-in", ""⟩ : AttendanceEntry)]
      (⟨"9f8b1c2d-aa11-4bc2-9e10-1234567890ab", "", "S123", "Ana", 1000, "check-in", "BSIT"⟩ : AttendanceEntry)).1
      (by decide)
  exact hidem

/-! ### Theorems for the throttle, cooldown and load wrapper -/
/-- C5 (code bug): the public `forceSync` does not bypass the 30-second
throttle.  `forceSync()` calls `performSync()` with the `forceSync`
parameter defaulted to `false`, so a force request issued 10 s after the
previous cycle is skipped, while the same call with the flag actually set
(as the online-transition poll passes it) would run. -/
theorem forceSync_throttled :
    forceSyncStep 11000 1000 = performSyncStep false 11000 1000 ∧
    forceSyncStep 11000 1000 = (false, 1000) ∧
    performSyncStep true 11000 1000 = (true, 11000) ∧
    performSyncStep false 40000 1000 = (true, 40000) := by
  refine ⟨rfl, by decide, by decide, by decide⟩

lemma latestTimestamp_ge {t : Int} {l : List Int} (h : t ∈ l) :
    ∃ m, latestTimestamp l = some m ∧ t ≤ m := by
  induction l with
  | nil => simp at h
  | cons t' ts ih =>
    rcases List.mem_cons.mp h with rfl | hts
    · cases hx : latestTimestamp ts with
      | none => exact ⟨t, by rw [latestTimestamp, hx], le_refl t⟩
      | some m' => exact ⟨max t m', by rw [latestTimestamp, hx], le_max_left t m'⟩
    · obtain ⟨m', hm', hle⟩ := ih hts
      rw [latestTimestamp, hm']
      exact ⟨max t' m', rfl, le_trans hle (le_max_right t' m')⟩

lemma latestTimestamp_mem {l : List Int} {m : Int} (h : latestTimestamp l = some m) :
    m ∈ l := by
  induction l generalizing m with
  | nil => simp [latestTimestamp] at h
  | cons t ts ih =>
    rw [latestTimestamp] at h
    cases hx : latestTimestamp ts with
    | none => rw [hx] at h; cases h; simp
    | some m' =>
      rw [hx] at h
      cases h
      rcases max_choice t m' with he | he
      · rw [he]; simp
      · rw [he]; exact List.mem_cons_of_mem _ (ih hx)

lemma cooldown_prefix (x y : String) :
    "COOLDOWN:".toList.isPrefixOf ("COOLDOWN:" ++ x ++ ":" ++ y).toList = true := by
  have h : ("COOLDOWN:" ++ x ++ ":" ++ y).toList =
      "COOLDOWN:".toList ++ (x.toList ++ (":".toList ++ y.toList)) := by
    simp [String.toList]
  rw [h]
  exact List.isPrefixOf_iff_prefix.mpr (List.prefix_append _ _)

/-- C9: if the store holds a same-direction entry for the same student
(matched by permanent identifier or business key) less than 300 s old,
`addAttendanceRecord` leaves the persisted list unchanged and raises an
error whose message begins with `COOLDOWN:`; if neither the store nor the
server holds such a recent entry, no cooldown rejection occurs and the new
record is appended. -/
theorem addAttendanceRecord_cooldown_spec (now : Int) (newId : String)
    (record : AttendanceEntry) (serverLatest : Option Int)
    (store : List AttendanceEntry) :
    ((∃ r ∈ store, matchesCooldownQuery (cooldownIdent record) record.type r = true ∧
        now - r.timestamp < cooldownMs) →
      (addAttendanceRecord now newId record serverLatest store).1 = store ∧
      ∃ msg, (addAttendanceRecord now newId record serverLatest store).2 = some msg ∧
        "COOLDOWN:".toList.isPrefixOf msg.toList = true) ∧
    ((∀ r ∈ store, matchesCooldownQuery (cooldownIdent record) record.type r = true →
        cooldownMs ≤ now - r.timestamp) →
      (∀ t, serverLatest = some t → cooldownMs ≤ now - t) →
      (addAttendanceRecord now newId record serverLatest store).2 = none ∧
      (addAttendanceRecord now newId record serverLatest store).1 =
        store ++ [{ record with id := newId }]) := by
  constructor
  · rintro ⟨r, hr, hmatch, hrecent⟩
    have hmem : r.timestamp ∈
        ((store.filter (matchesCooldownQuery (cooldownIdent record) record.type)).map
          (fun r => r.timestamp)) ++
          (match serverLatest with | some t => [t] | none => []) := by
      refine List.mem_append_left _ ?_
      exact List.mem_map_of_mem _ (List.mem_filter.mpr ⟨hr, hmatch⟩)
    obtain ⟨m, hm, hle⟩ := latestTimestamp_ge hmem
    have hlt : now - m < cooldownMs := lt_of_le_of_lt (by omega) hrecent
    have hg : getLastAttendanceTimestamp store serverLatest (cooldownIdent record)
        record.type = some m := hm
    constructor
    · simp [addAttendanceRecord, hg, hlt]
    · refine ⟨"COOLDOWN:" ++ toString (((cooldownMs - (now - m) + 999).ediv 1000).ediv 60) ++
        ":" ++ toString (((cooldownMs - (now - m) + 999).ediv 1000).emod 60), ?_,
        cooldown_prefix _ _⟩
      simp [addAttendanceRecord, hg, hlt]
  · intro hlocal hserver
    cases hm : getLastAttendanceTimestamp store serverLatest (cooldownIdent record)
        record.type with
    | none => rw [addAttendanceRecord, hm]; exact ⟨rfl, rfl⟩
    | some last =>
      have hmem := latestTimestamp_mem hm
      have hold : cooldownMs ≤ now - last := by
        rcases List.mem_append.mp hmem with hl | hs
        · obtain ⟨r, hrf, hrt⟩ := List.mem_map.mp hl
          obtain ⟨hrs, hrm⟩ := List.mem_filter.mp hrf
          exact hrt ▸ hlocal r hrs hrm
        · cases serverLatest with
          | none => simp at hs
          | some t =>
            have : last = t := by simpa using hs
            exact this ▸ hserver t rfl
      have hnlt : ¬(now - last < cooldownMs) := by omega
      constructor
      · simp [addAttendanceRecord, hm, hnlt]
      · simp [addAttendanceRecord, hm, hnlt]

/-- Witness for C9: a repeat check-in 200 s after the previous one for the
same student is rejected with an untouched store, and the same scan with no
prior entry is stored. -/
theorem addAttendanceRecord_cooldown_spec_witness :
    (addAttendanceRecord 400000 "local_99"
        (⟨"", "", "S123", "Ana", 400000, "check-in", ""⟩ : AttendanceEntry) none
        [(⟨"local_1", "", "S123", "Ana", 200000, "check-in", ""⟩ : AttendanceEntry)]).1 =
      [(⟨"local_1", "", "S123", "Ana", 200000, "check-in", ""⟩ : AttendanceEntry)] ∧
    (addAttendanceRecord 400000 "local_99"
        (⟨"", "", "S123", "Ana", 400000, "check-in", ""⟩ : AttendanceEntry) none []).2 =
      none := by
  constructor
  · exact ((addAttendanceRecord_cooldown_spec 400000 "local_99"
      (⟨"", "", "S123", "Ana", 400000, "check-in", ""⟩ : AttendanceEntry) none
      [(⟨"local_1", "", "S123", "Ana", 200000, "check-in", ""⟩ : AttendanceEntry)]).1
      ⟨(⟨"local_1", "", "S123", "Ana", 200000, "check-in", ""⟩ : AttendanceEntry),
        by decide, by decide, by decide⟩).1
  · exact ((addAttendanceRecord_cooldown_spec 400000 "local_99"
      (⟨"", "", "S123", "Ana", 400000, "check-in", ""⟩ : AttendanceEntry) none []).2
      (by intro r hr; simp at hr) (by intro t ht; cases ht)).1

/-- C10: the local-load wrapper is total over every storage-manager
behaviour: a successful load is returned as-is, and any load failure
produces the empty envelope, whose `fullSyncCompleted` key is absent and
therefore reads as not-yet-bootstrapped. -/
theorem getFromLocalStorage_total_spec :
    (∀ d, getFromLocalStorage (OpResult.ok d) = d) ∧
    (∀ msg, getFromLocalStorage (OpResult.err msg) =
      { students := [], attendanceRecords := [], documents := [], lastSync := none,
        fullSyncCompleted := none }) ∧
    (∀ msg, fullSyncFlag (getFromLocalStorage (OpResult.err msg)) = false) :=
  ⟨fun _ => rfl, fun _ => rfl, fun _ => rfl⟩

/-! ### Theorems for the flat driver and the manager -/
/-- C6 (code bug): the flat-fallback save does read-merge-write for
students, attendance, documents and lastSync, but rebuilds the blob without
the `fullSyncCompleted` key: after saving only attendance records over a
blob whose flag was `true`, a reload returns the other four fields intact
and the flag absent — and the key is dropped even when the partial supplies
it explicitly. -/
theorem lsSave_drops_fullSyncCompleted :
    lsLoad (lsSave { attendanceRecords :=
        (some [(⟨"local_1", "", "S123", "Ana", 1000, "check-in", ""⟩ : AttendanceEntry)]) }
      (some { students := [(⟨"u-1", "Ana", "S123", "", "", "", "", "notre-dame", false⟩ : Student)],
              attendanceRecords := [], documents := ["doc1"],
              lastSync := some "2026-01-01T00:00:00Z", fullSyncCompleted := some true })) =
      { students := [(⟨"u-1", "Ana", "S123", "", "", "", "", "notre-dame", false⟩ : Student)],
        attendanceRecords := [(⟨"local_1", "", "S123", "Ana", 1000, "check-in", ""⟩ : AttendanceEntry)],
        documents := ["doc1"], lastSync := some "2026-01-01T00:00:00Z",
        fullSyncCompleted := none } ∧
    (lsLoad (lsSave { fullSyncCompleted := some true }
      (some { students := [], attendanceRecords := [], documents := [],
              lastSync := none, fullSyncCompleted := some true }))).fullSyncCompleted =
      none := by
  constructor
  · rfl
  · rfl

/-- C7 counterexample: with the active driver's `clear` failing and a
lower-preference driver available whose `clear` succeeds, `clear` surfaces
the error instead of walking — while `save` under the same configuration
does walk and switches the active driver. -/
theorem managerClear_counterexample :
    managerClear
        [(⟨true, .ok (lsLoad none), .err "quota", .err "quota"⟩ : StorageDriver),
         (⟨true, .ok (lsLoad none), .ok (), .ok ()⟩ : StorageDriver)] 0 =
      .err "quota" ∧
    (⟨true, .ok (lsLoad none), .ok (), .ok ()⟩ : StorageDriver).available = true ∧
    (⟨true, .ok (lsLoad none), .ok (), .ok ()⟩ : StorageDriver).clearResult = .ok () ∧
    managerSave
        [(⟨true, .ok (lsLoad none), .err "quota", .err "quota"⟩ : StorageDriver),
         (⟨true, .ok (lsLoad none), .ok (), .ok ()⟩ : StorageDriver)] 0 =
      .ok 1 := by
  refine ⟨rfl, rfl, rfl, rfl⟩

/-- C7 amended: `clear` delegates to the active driver only — a success
keeps the active driver, and a failure surfaces immediately without any
fallback attempt on the remaining drivers. -/
theorem managerClear_no_fallback (drivers : List StorageDriver) (cur : Nat)
    (d : StorageDriver) (h : drivers[cur]? = some d) :
    managerClear drivers cur =
      (match d.clearResult with | .ok _ => .ok cur | .err e => .err e) := by
  simp only [managerClear, h]

/-- Witness for the amended C7 at a concrete driver list. -/
theorem managerClear_no_fallback_witness :
    managerClear [(⟨true, .ok (lsLoad none), .ok (), .err "fs"⟩ : StorageDriver)] 0 =
      .err "fs" := by
  exact (managerClear_no_fallback
    [(⟨true, .ok (lsLoad none), .ok (), .err "fs"⟩ : StorageDriver)] 0
    (⟨true, .ok (lsLoad none), .ok (), .err "fs"⟩ : StorageDriver) rfl).trans rfl

/-! ### Theorems for the pull pass -/
/-- C3: a failed remote fetch — a rejected network call, a failed students
query, or a failed attendance query — terminates the pull pass without any
save: the persisted envelope equals the starting envelope.  The pass is a
total function (the try/catch swallows the rejection), so no error
propagates out of it. -/
theorem pullPass_failure_no_mutation (store : OfflineData) (nowIso : String)
    (now : Int) :
    (∀ msg, pullPassPersist store (OpResult.err msg) nowIso now = store) ∧
    (∀ resp : PullResponse,
      ((∃ e, resp.students = OpResult.err e) ∨
        (∃ e, resp.attendance = OpResult.err e)) →
      syncSupabaseToLocal store (OpResult.ok resp) nowIso now = none ∧
      pullPassPersist store (OpResult.ok resp) nowIso now = store) := by
  constructor
  · intro msg; rfl
  · rintro ⟨sRes, aRes⟩ h
    have hnone : syncPullSave store ⟨sRes, aRes⟩ nowIso now = none := by
      rcases h with ⟨e, he⟩ | ⟨e, he⟩
      · simp only at he
        subst he
        cases aRes <;> rfl
      · simp only at he
        subst he
        cases sRes <;> rfl
    refine ⟨hnone, ?_⟩
    simp [pullPassPersist, syncSupabaseToLocal, hnone]

/-- Witness for C3: a pass whose students query fails leaves a concrete
envelope untouched. -/
theorem pullPass_failure_no_mutation_witness :
    pullPassPersist
        { students := [], attendanceRecords :=
            [(⟨"local_1", "", "S123", "Ana", 1000, "check-in", ""⟩ : AttendanceEntry)],
          documents := [], lastSync := none, fullSyncCompleted := some true }
        (OpResult.ok ⟨OpResult.err "FetchError", OpResult.ok []⟩) "iso" 5000 =
      { students := [], attendanceRecords :=
          [(⟨"local_1", "", "S123", "Ana", 1000, "check-in", ""⟩ : AttendanceEntry)],
        documents := [], lastSync := none, fullSyncCompleted := some true } := by
  exact ((pullPass_failure_no_mutation
    { students := [], attendanceRecords :=
        [(⟨"local_1", "", "S123", "Ana", 1000, "check-in", ""⟩ : AttendanceEntry)],
      documents := [], lastSync := none, fullSyncCompleted := some true } "iso" 5000).2
    ⟨OpResult.err "FetchError", OpResult.ok []⟩ (Or.inl ⟨"FetchError", rfl⟩)).2

/-- C4: the pull pass requests attendance without a date lower-bound exactly
when the envelope's `fullSyncCompleted` flag is unset (absent or false) and
with a 30-day lower bound when it is set; the students query is always
unfiltered; and every successful pass saves with `fullSyncCompleted =
true`. -/
theorem pullRequest_bootstrap_spec (d : OfflineData) (now : Int) (nowIso : String) :
    ((pullRequest d now).attendanceSince = none ↔ fullSyncFlag d = false) ∧
    (fullSyncFlag d = true →
      (pullRequest d now).attendanceSince = some (now - thirtyDaysMs)) ∧
    (pullRequest d now).studentsSince = none ∧
    (∀ sRows aRows, ∃ p,
      syncSupabaseToLocal d (OpResult.ok ⟨OpResult.ok sRows, OpResult.ok aRows⟩)
          nowIso now = some p ∧
        p.fullSyncCompleted = some true) := by
  refine ⟨?_, ?_, rfl, ?_⟩
  · cases hf : fullSyncFlag d <;> simp [pullRequest, hf]
  · intro hf; simp [pullRequest, hf]
  · intro sRows aRows
    exact ⟨_, rfl, rfl⟩

/-- Witness for C4: an envelope with the flag set requests only the last 30
days. -/
theorem pullRequest_bootstrap_spec_witness :
    (pullRequest
        { students := [], attendanceRecords := [], documents := [], lastSync := none,
          fullSyncCompleted := some true } 2600000000).attendanceSince =
      some 8000000 := by
  exact ((pullRequest_bootstrap_spec
    { students := [], attendanceRecords := [], documents := [], lastSync := none,
      fullSyncCompleted := some true } 2600000000 "iso").2.1 (by decide)).trans (by decide)

end NDKC
